import Mathlib

/-!
# Verification of gitdeck's session orchestration and auth resilience core

Shallow embedding of the gitdeck repository (Go) into Lean 4:

* `internal/domain`       — pipeline/job/step data model and the `ErrUnauthorized` sentinel
* `internal/provider/refreshing.go` — the token-refresh decorator (`RefreshingProvider`)
* `internal/auth/token_manager.go`  — `TokenManager.RefreshGitLab`
* `internal/auth` device flows      — `PollToken` (GitLab and GitHub share the same loop)
* `internal/tui`          — `PipelineListModel`, `JobDetailModel`, `StepListModel`
                            and the root state machine `AppModel.Update`

Go errors are modelled by an explicit error datatype with wrapping, so that
`errors.Is(err, domain.ErrUnauthorized)` and `errors.As(err, &authExpiredErr)`
become recursive predicates over the wrap chain.  Network effects are passed in
as explicit oracles (a result per invocation index), and the decorator threads a
counter record so that call counts become provable facts.
-/

namespace Gitdeck

/-! ## Domain data model (internal/domain) -/

/-- Go's `domain.PipelineStatus` is a defined string type; its zero value is the
empty string, so we model it as `String` with the five named constants. -/
abbrev PipelineStatus := String

def StatusPending : PipelineStatus := "pending"
def StatusRunning : PipelineStatus := "running"
def StatusSuccess : PipelineStatus := "success"
def StatusFailed : PipelineStatus := "failed"
def StatusCancelled : PipelineStatus := "cancelled"

/-- `domain.Step` (duration in seconds; time values are irrelevant to the claims). -/
structure Step where
  name : String := ""
  status : PipelineStatus := ""
  duration : Int := 0
deriving Repr, DecidableEq

/-- `domain.Job`. -/
structure Job where
  id : String := ""
  name : String := ""
  stage : String := ""
  status : PipelineStatus := ""
  duration : Int := 0
  steps : List Step := []
deriving Repr, DecidableEq

/-- `domain.Pipeline`. -/
structure Pipeline where
  id : String := ""
  branch : String := ""
  commitSHA : String := ""
  commitMsg : String := ""
  author : String := ""
  status : PipelineStatus := ""
  jobs : List Job := []
deriving Repr, DecidableEq

instance : Inhabited Pipeline := ⟨{}⟩
instance : Inhabited Job := ⟨{}⟩

/-- `domain.Repository`. -/
structure Repository where
  owner : String := ""
  name : String := ""
  remoteURL : String := ""
deriving Repr, DecidableEq

/-! ## Go errors

`GoError` models the Go `error` values that flow through the core:
`domain.ErrUnauthorized` (a sentinel created by `errors.New`),
`*provider.AuthExpiredError` (a typed error carrying the provider name),
errors built by `fmt.Errorf` without wrapping, and `fmt.Errorf(..., %w)`
wrapping, which preserves `errors.Is` / `errors.As` matching. -/

inductive GoError where
  | unauthorized : GoError
  | authExpired (provider : String) : GoError
  | errorf (msg : String) : GoError
  | wrap (msg : String) (inner : GoError) : GoError
deriving Repr, DecidableEq

/-- `errors.Is(e, domain.ErrUnauthorized)`: true exactly when the wrap chain
reaches the sentinel. -/
def GoError.isUnauthorized : GoError → Bool
  | .unauthorized => true
  | .wrap _ inner => inner.isUnauthorized
  | _ => false

/-- `errors.As(e, &authErr)` for `*provider.AuthExpiredError`: returns the
provider name when the wrap chain reaches an `AuthExpiredError`. -/
def GoError.asAuthExpired : GoError → Option String
  | .authExpired p => some p
  | .wrap _ inner => inner.asAuthExpired
  | _ => none

/-! ## RefreshingProvider (internal/provider/refreshing.go)

All five wrapped operations (`ListPipelines`, `GetPipeline`, `GetJobLogs`,
`RerunPipeline`, `CancelPipeline`) follow the identical pattern: call the inner
operation; if the error `errors.Is`-matches `ErrUnauthorized`, run
`handleUnauthorized` with a retry closure; otherwise return the result as is.
We embed the pattern once, generically in the result type `α`, against an
oracle that gives the result of the i-th inner invocation and of the i-th
`refreshFn` invocation; `RpCounters` counts the invocations made. -/

/-- Deterministic environment for one decorated call: `call i` is the result of
the (i+1)-th invocation of the inner operation, `refresh i` the result of the
(i+1)-th invocation of `refreshFn` (token on success). -/
structure ProviderOracle (α : Type) where
  call : Nat → Except GoError α
  refresh : Nat → Except GoError String

/-- Invocation counters and the token last passed to `updateToken`. -/
structure RpCounters where
  innerCalls : Nat := 0
  refreshCalls : Nat := 0
  updateTokenCalls : Nat := 0
  tokenInstalled : Option String := none
deriving Repr, DecidableEq

/-- The body of every `RefreshingProvider` method, translated from
`ListPipelines` (refreshing.go:59-74); `handleUnauthorized` (lines 50-57) is
inlined at its unique use site.  Returns the Go result together with the
invocation counters. -/
def refreshingCall (providerName : String) (oracle : ProviderOracle α) :
    Except GoError α × RpCounters :=
  let s : RpCounters := {}
  let result := oracle.call s.innerCalls
  let s := { s with innerCalls := s.innerCalls + 1 }
  match result with
  | .error err =>
    if err.isUnauthorized then
      -- handleUnauthorized: refreshFn, then AuthExpired or updateToken + retry
      let refreshed := oracle.refresh s.refreshCalls
      let s := { s with refreshCalls := s.refreshCalls + 1 }
      match refreshed with
      | .error _ => (.error (.authExpired providerName), s)
      | .ok newToken =>
        let s := { s with updateTokenCalls := s.updateTokenCalls + 1,
                          tokenInstalled := some newToken }
        let retried := oracle.call s.innerCalls
        let s := { s with innerCalls := s.innerCalls + 1 }
        (retried, s)
    else
      (.error err, s)
  | .ok v => (.ok v, s)

/-- `RefreshingProvider.ListPipelines`, the list-typed instance of the shared
pattern. -/
def RefreshingProvider.ListPipelines (providerName : String)
    (oracle : ProviderOracle (List Pipeline)) :
    Except GoError (List Pipeline) × RpCounters :=
  refreshingCall providerName oracle

/-- `RefreshingProvider.RerunPipeline` / `CancelPipeline`, the unit-typed
instance of the shared pattern (Go returns only `error`). -/
def RefreshingProvider.RerunPipeline (providerName : String)
    (oracle : ProviderOracle Unit) : Except GoError Unit × RpCounters :=
  refreshingCall providerName oracle

/-! ## Device flow types (internal/auth/types.go) -/

/-- `auth.DeviceCodeResponse`. -/
structure DeviceCodeResponse where
  deviceCode : String := ""
  userCode : String := ""
  verificationURI : String := ""
  expiresIn : Int := 0
  interval : Int := 0
deriving Repr, DecidableEq

/-- `auth.TokenResponse`. -/
structure TokenResponse where
  accessToken : String := ""
  refreshToken : String := ""
deriving Repr, DecidableEq

/-! ## TokenManager.RefreshGitLab (internal/auth/token_manager.go)

The OAuth refresh-token exchange (`flow.RefreshToken`, network) and
`config.Save` (disk) are the two effects of `RefreshGitLab`; we pass their
outcomes in as parameters and return the updated in-memory GitLab config
alongside the Go `(string, error)` result. -/

/-- The GitLab section of `config.Config` that `RefreshGitLab` reads/writes. -/
structure GitLabConfig where
  token : String := ""
  refreshToken : String := ""
  clientID : String := ""
deriving Repr, DecidableEq

/-- `TokenManager.RefreshGitLab` (token_manager.go:35-66).  `exchange` is the
outcome of `flow.RefreshToken(ctx, cfg.GitLab.RefreshToken)`; `save` the
outcome of `config.Save(configPath, *cfg)`.  Result: the config after the call
(the in-memory mutation of `tm.cfg`), the returned access token, and the
returned error (`none` = nil). -/
def TokenManager.RefreshGitLab (cfg : GitLabConfig) (configPath : String)
    (exchange : Except String TokenResponse) (save : Except String Unit) :
    GitLabConfig × String × Option String :=
  if cfg.refreshToken = "" then
    (cfg, "", some "no refresh token available")
  else
    match exchange with
    | .error e => (cfg, "", some ("refreshing GitLab token: " ++ e))
    | .ok resp =>
      let cfg :=
        { cfg with token := resp.accessToken, refreshToken := resp.refreshToken }
      if configPath ≠ "" then
        match save with
        | .error saveErr =>
          -- Token refreshed in memory but save failed -- the Go code returns
          -- the token together with a non-nil error
          (cfg, resp.accessToken,
           some ("token refreshed but failed to save config: " ++ saveErr))
        | .ok _ => (cfg, resp.accessToken, none)
      else
        (cfg, resp.accessToken, none)

/-- The `refreshFn` closure wired in `cmd/gitdeck/main.go`:
`func() (string, error) { return tokenManager.RefreshGitLab(ctx) }`, converted
to the decorator's view (the decorator only distinguishes nil / non-nil
`refreshErr`). -/
def refreshGitLabAsRefreshFn (cfg : GitLabConfig) (configPath : String)
    (exchange : Except String TokenResponse) (save : Except String Unit) :
    Except GoError String :=
  match TokenManager.RefreshGitLab cfg configPath exchange save with
  | (_, _, some e) => .error (.errorf e)
  | (_, tok, none) => .ok tok

/-! ## Device-flow polling (GitLab: src/unnamed/part_009 `PollToken`;
GitHub: src/unnamed/part_011 is the same loop with label "GitHub")

The loop body: sleep `interval` seconds (racing the context deadline), POST to
the token endpoint, then branch on the response's `error` field.  We model the
server as a finite list of responses, one consumed per request; time advances
by `interval` per sleep (requests themselves are instantaneous in the model);
the context of `context.WithTimeout` is done once elapsed time reaches
`deadline` seconds.  During a sleep the `select` returns `ctx.Err()` whenever
the deadline falls within the sleep, i.e. when `deadline ≤ elapsed + interval`
(with the normalised `interval ≥ 0` this also covers an already-expired
context and the non-blocking check of the `interval = 0` branch). -/

/-- The decoded token-endpoint response body: `access_token`, `error`
(empty string = field absent). -/
structure PollResp where
  accessToken : String := ""
  error : String := ""
deriving Repr, DecidableEq

/-- Outcome of `PollToken`. -/
inductive PollOutcome where
  | token (t : String) : PollOutcome
  | err (msg : String) : PollOutcome
  /-- `ctx.Err()` returned from a `ctx.Done()` branch. -/
  | ctxDone : PollOutcome
  /-- the supplied finite response list ran out (the Go loop would poll on). -/
  | serverSilent : PollOutcome
deriving Repr, DecidableEq

/-- Result of `PollToken`: outcome, total number of token requests made, and
the polling interval in force when the loop ended. -/
structure PollResult where
  outcome : PollOutcome
  requests : Nat
  finalInterval : Int
deriving Repr, DecidableEq

/-- `if len(errMsg) > 100 { errMsg = errMsg[:100] }` (Go slices bytes; we
truncate to the first 100 characters, which agrees on ASCII error codes). -/
def truncate100 (s : String) : String :=
  if s.length > 100 then String.mk (s.toList.take 100) else s

/-- The `for` loop of `PollToken` (part_009:107-175 / part_011:105-173),
parametrised by the provider label used in the "unexpected error" message. -/
def pollLoop (label : String) (rs : List PollResp)
    (interval elapsed deadline : Int) (reqs : Nat) : PollResult :=
  -- sleep phase: select { time.After(interval) | ctx.Done() }
  if deadline ≤ elapsed + interval then
    ⟨.ctxDone, reqs, interval⟩
  else
    let elapsed := elapsed + interval
    match rs with
    | [] => ⟨.serverSilent, reqs, interval⟩
    | r :: rest =>
      let reqs := reqs + 1
      if r.error = "" then
        if r.accessToken ≠ "" then
          ⟨.token r.accessToken, reqs, interval⟩
        else
          -- neither token nor error: non-blocking ctx check, then retry
          if deadline ≤ elapsed then
            ⟨.ctxDone, reqs, interval⟩
          else
            pollLoop label rest interval elapsed deadline reqs
      else if r.error = "authorization_pending" then
        pollLoop label rest interval elapsed deadline reqs
      else if r.error = "slow_down" then
        pollLoop label rest (interval + 5) elapsed deadline reqs
      else if r.error = "expired_token" then
        ⟨.err "device code expired — run gitdeck again to restart authentication",
         reqs, interval⟩
      else if r.error = "access_denied" then
        ⟨.err "access denied by user", reqs, interval⟩
      else
        ⟨.err ("unexpected error from " ++ label ++ ": " ++ truncate100 r.error),
         reqs, interval⟩

/-- `PollToken` entry: normalises `interval <= 0` to `0` (no sleep), then runs
the loop with elapsed time `0` against a context that times out after
`deadline` seconds. -/
def PollToken (label : String) (rs : List PollResp) (interval deadline : Int) :
    PollResult :=
  pollLoop label rs (if interval ≤ 0 then 0 else interval) 0 deadline 0

/-- The `authorization_pending` server response. -/
def pendingResp : PollResp := { error := "authorization_pending" }

/-- The `slow_down` server response. -/
def slowDownResp : PollResp := { error := "slow_down" }

/-- The `expired_token` server response. -/
def expiredResp : PollResp := { error := "expired_token" }

/-- The `access_denied` server response. -/
def deniedResp : PollResp := { error := "access_denied" }

/-- `AppModel.pollReAuthToken` (internal/tui/app.go:391-398) wires
`context.WithTimeout(..., ExpiresIn seconds)` and the code's minimum interval
into `OnPollToken`, which `cmd/gitdeck/main.go` routes to the device flow's
`PollToken`. -/
def reAuthPollResult (label : String) (code : DeviceCodeResponse)
    (rs : List PollResp) : PollResult :=
  PollToken label rs code.interval code.expiresIn

/-! ## List models (internal/tui/pipelinelist.go, jobdetail.go, steplist.go)

Go cursors are `int`; we keep them as `Int` so "never negative" is a theorem,
not a typing artefact. -/

/-- `tui.PipelineListModel`. -/
structure PipelineListModel where
  pipelines : List Pipeline
  cursor : Int
deriving Repr, DecidableEq

/-- `NewPipelineListModel`. -/
def NewPipelineListModel (pipelines : List Pipeline) : PipelineListModel :=
  ⟨pipelines, 0⟩

/-- `PipelineListModel.MoveDown` (pipelinelist.go:23-28). -/
def PipelineListModel.MoveDown (m : PipelineListModel) : PipelineListModel :=
  if m.cursor < (m.pipelines.length : Int) - 1 then
    { m with cursor := m.cursor + 1 }
  else m

/-- `PipelineListModel.MoveUp` (pipelinelist.go:31-36). -/
def PipelineListModel.MoveUp (m : PipelineListModel) : PipelineListModel :=
  if m.cursor > 0 then { m with cursor := m.cursor - 1 } else m

/-- `PipelineListModel.SelectedPipeline` (pipelinelist.go:45-50): zero-value
`Pipeline` when the list is empty, else `pipelines[cursor]` (in-range under the
cursor invariant; out-of-range indexing, which would panic in Go, is totalised
to the zero value). -/
def PipelineListModel.SelectedPipeline (m : PipelineListModel) : Pipeline :=
  if m.pipelines.isEmpty then {} else (m.pipelines.get? m.cursor.toNat).getD {}

/-- Modelled from the spec: `PipelineListModel.UpdatePipelines` is called by
`AppModel.Update` (app.go:443) and exercised by
`TestPipelineListModel_UpdatePipelines_PreservesCursor` /
`..._ResetsWhenPipelineGone` (pipelinelist_test.go:65-113), but its body is not
in the source tree.  Spec §4.1: "the refresh must locate the previously
selected pipeline by identity (not position) in the new list and keep the
cursor pointed at it; if that pipeline no longer exists in the new list, the
cursor resets to the first entry." -/
def PipelineListModel.UpdatePipelines (m : PipelineListModel)
    (newPipelines : List Pipeline) : PipelineListModel :=
  match newPipelines.findIdx? (fun p => p.id == m.SelectedPipeline.id) with
  | some i => ⟨newPipelines, (i : Int)⟩
  | none => ⟨newPipelines, 0⟩

/-- `tui.JobDetailModel` (jobdetail.go).  `expanded` is Go's `map[int]bool`
with absent keys reading `false`. -/
structure JobDetailModel where
  jobs : List Job
  cursor : Int
  expanded : Int → Bool

/-- `NewJobDetailModel`. -/
def NewJobDetailModel (jobs : List Job) : JobDetailModel :=
  ⟨jobs, 0, fun _ => false⟩

/-- `JobDetailModel.MoveDown` (jobdetail.go:23-28). -/
def JobDetailModel.MoveDown (m : JobDetailModel) : JobDetailModel :=
  if m.cursor < (m.jobs.length : Int) - 1 then
    { m with cursor := m.cursor + 1 }
  else m

/-- `JobDetailModel.MoveUp` (jobdetail.go:31-36). -/
def JobDetailModel.MoveUp (m : JobDetailModel) : JobDetailModel :=
  if m.cursor > 0 then { m with cursor := m.cursor - 1 } else m

/-- `JobDetailModel.ToggleExpand` (jobdetail.go:40-51). -/
def JobDetailModel.ToggleExpand (m : JobDetailModel) (idx : Int) : JobDetailModel :=
  if idx < 0 ∨ (m.jobs.length : Int) ≤ idx ∨
      (((m.jobs.get? idx.toNat).getD {}).steps.isEmpty) then m
  else { m with expanded := fun k => if k = idx then !m.expanded idx else m.expanded k }

/-- `JobDetailModel.Cursor`. -/
def JobDetailModel.Cursor (m : JobDetailModel) : Int := m.cursor

/-- `JobDetailModel.Jobs`. -/
def JobDetailModel.Jobs (m : JobDetailModel) : List Job := m.jobs

/-- `tui.StepListModel` (steplist.go). -/
structure StepListModel where
  steps : List Step
  cursor : Int
deriving Repr, DecidableEq

/-- `NewStepListModel`. -/
def NewStepListModel (steps : List Step) : StepListModel :=
  ⟨steps, 0⟩

/-- `StepListModel.MoveDown` (steplist.go:22-27). -/
def StepListModel.MoveDown (m : StepListModel) : StepListModel :=
  if m.cursor < (m.steps.length : Int) - 1 then
    { m with cursor := m.cursor + 1 }
  else m

/-- `StepListModel.MoveUp` (steplist.go:30-35). -/
def StepListModel.MoveUp (m : StepListModel) : StepListModel :=
  if m.cursor > 0 then { m with cursor := m.cursor - 1 } else m

/-! ## The navigation state machine (internal/tui/app.go)

The embedding follows the drill-down version of `app.go` (the one with
`viewState`, re-auth and the log viewer; app.go:222-843 of the concatenated
source), whose `Update` is the single `handle(event)` entry point of spec
§4.1.  Commands returned by `Update` are recorded symbolically; the nil
command is `[]` and `tea.Batch` is list concatenation.  The nil-ness of the
`OnRequestCode` / `OnTokenRefreshed` callbacks is carried as two booleans. -/

/-- `tui.viewState`. -/
inductive ViewState where
  | pipelines | jobs | steps | logs | reAuth
deriving Repr, DecidableEq

/-- The commands `AppModel.Update` can emit (`tea.Cmd` values, recorded
symbolically; `onTokenRefreshed` records the synchronous callback invocation). -/
inductive Cmd where
  | loadPipelines : Cmd
  | loadPipelineDetail (id : String) : Cmd
  | rerunPipeline (id : String) : Cmd
  | cancelPipeline (id : String) : Cmd
  | loadJobLogs (job : Job) : Cmd
  | requestDeviceCode : Cmd
  | pollReAuthToken : Cmd
  | tickEvery (seconds : Int) : Cmd
  | quit : Cmd
  | onTokenRefreshed (provider : String) (token : TokenResponse) : Cmd
deriving Repr, DecidableEq

/-- The messages `AppModel.Update` consumes, each mirroring its Go struct. -/
inductive Msg where
  | pipelinesLoaded (pipelines : List Pipeline) (err : Option GoError) : Msg
  | pipelineDetail (pipeline : Pipeline) (err : Option GoError) : Msg
  | tick : Msg
  | actionResult (action : String) (err : Option GoError) : Msg
  | logsLoaded (content : String) (jobName : String) (err : Option GoError) : Msg
  | deviceCode (code : DeviceCodeResponse) (err : Option GoError) : Msg
  | reAuthComplete (token : TokenResponse) (err : Option GoError) : Msg
  | key (k : String) : Msg
  | windowSize (w h : Int) : Msg

/-- `tui.AppModel` (app.go:292-326). -/
structure AppModel where
  repo : Repository
  view : ViewState
  list : PipelineListModel
  selectedPipeline : Pipeline
  detail : JobDetailModel
  selectedJob : Job
  steps : StepListModel
  loading : Bool
  err : Option GoError
  width : Int
  height : Int
  confirmAction : String
  logMode : Bool
  logLoading : Bool
  logContent : String
  logOffset : Int
  logJobName : String
  logReturnView : ViewState
  reAuthProvider : String
  reAuthCode : DeviceCodeResponse
  hasOnRequestCode : Bool
  hasOnTokenRefreshed : Bool

/-- `NewAppModel` (app.go:329-337): zero values everywhere except the listed
fields; the `OnRequestCode`/`OnTokenRefreshed` callbacks start nil and are
assigned by `cmd/gitdeck/main.go` after construction. -/
def NewAppModel (repo : Repository) : AppModel where
  repo := repo
  view := .pipelines
  list := NewPipelineListModel []
  selectedPipeline := {}
  detail := NewJobDetailModel []
  selectedJob := {}
  steps := ⟨[], 0⟩
  loading := true
  err := none
  width := 0
  height := 0
  confirmAction := ""
  logMode := false
  logLoading := false
  logContent := ""
  logOffset := 0
  logJobName := ""
  logReturnView := .pipelines
  reAuthProvider := ""
  reAuthCode := {}
  hasOnRequestCode := false
  hasOnTokenRefreshed := false

/-- `anyRunning` (app.go:407-414). -/
def anyRunning (pipelines : List Pipeline) : Bool :=
  pipelines.any (fun p => p.status == StatusRunning)

/-- `strings.Count(s, "\n")`. -/
def countNewlines (s : String) : Nat :=
  s.toList.count '\n'

/-- `AppModel.visibleLogLines` (app.go:810-816). -/
def AppModel.visibleLogLines (m : AppModel) : Int :=
  let lines := m.height - 4
  if lines < 10 then 10 else lines

/-- `AppModel.updatePipelines` (app.go:584-604): key handling while
`viewPipelines` is active. -/
def AppModel.updatePipelinesKey (m : AppModel) (k : String) : AppModel × List Cmd :=
  if k = "down" then
    let list := m.list.MoveDown
    ({ m with list := list, selectedPipeline := list.SelectedPipeline }, [])
  else if k = "up" then
    let list := m.list.MoveUp
    ({ m with list := list, selectedPipeline := list.SelectedPipeline }, [])
  else if k = "enter" then
    if m.list.pipelines.length > 0 then
      let sel := m.list.SelectedPipeline
      ({ m with selectedPipeline := sel, view := .jobs },
       [.loadPipelineDetail sel.id])
    else (m, [])
  else if k = "r" then ({ m with confirmAction := "rerun" }, [])
  else if k = "x" then ({ m with confirmAction := "cancel" }, [])
  else (m, [])

/-- `AppModel.updateJobs` (app.go:606-635): key handling while `viewJobs` is
active. -/
def AppModel.updateJobsKey (m : AppModel) (k : String) : AppModel × List Cmd :=
  if k = "down" then ({ m with detail := m.detail.MoveDown }, [])
  else if k = "up" then ({ m with detail := m.detail.MoveUp }, [])
  else if k = "enter" then
    let jobs := m.detail.Jobs
    if jobs.length > 0 then
      let job := (jobs.get? m.detail.Cursor.toNat).getD {}
      ({ m with selectedJob := job, steps := NewStepListModel job.steps,
                view := .steps }, [])
    else (m, [])
  else if k = "l" then
    if !m.logLoading then
      let jobs := m.detail.Jobs
      if jobs.length > 0 then
        ({ m with logLoading := true },
         [.loadJobLogs ((jobs.get? m.detail.Cursor.toNat).getD {})])
      else (m, [])
    else (m, [])
  else if k = "esc" then ({ m with view := .pipelines }, [])
  else if k = "r" then ({ m with confirmAction := "rerun" }, [])
  else if k = "x" then ({ m with confirmAction := "cancel" }, [])
  else (m, [])

/-- `AppModel.updateSteps` (app.go:637-652): key handling while `viewSteps` is
active. -/
def AppModel.updateStepsKey (m : AppModel) (k : String) : AppModel × List Cmd :=
  if k = "down" then ({ m with steps := m.steps.MoveDown }, [])
  else if k = "up" then ({ m with steps := m.steps.MoveUp }, [])
  else if k = "l" then
    if !m.logLoading then
      ({ m with logLoading := true }, [.loadJobLogs m.selectedJob])
    else (m, [])
  else if k = "esc" then ({ m with view := .jobs }, [])
  else (m, [])

/-- `AppModel.updateLogs` (app.go:654-690): key handling while `viewLogs` is
active. -/
def AppModel.updateLogsKey (m : AppModel) (k : String) : AppModel × List Cmd :=
  if k = "down" then
    let maxOffset : Int := countNewlines m.logContent
    (if m.logOffset < maxOffset then { m with logOffset := m.logOffset + 1 } else m, [])
  else if k = "up" then
    (if m.logOffset > 0 then { m with logOffset := m.logOffset - 1 } else m, [])
  else if k = "pgup" then
    let page := m.visibleLogLines
    (if m.logOffset - page ≥ 0 then { m with logOffset := m.logOffset - page }
     else { m with logOffset := 0 }, [])
  else if k = "pgdown" then
    let maxOffset : Int := countNewlines m.logContent
    let off := m.logOffset + m.visibleLogLines
    ({ m with logOffset := if off > maxOffset then maxOffset else off }, [])
  else if k = "g" then ({ m with logOffset := 0 }, [])
  else if k = "G" then
    ({ m with logOffset := ((m.logContent.splitOn "\n").length : Int) - 1 }, [])
  else if k = "esc" then
    ({ m with view := m.logReturnView, logMode := false, logContent := "",
              logOffset := 0 }, [])
  else (m, [])

/-- `AppModel.Update` (app.go:417-582): the single `handle(event)` entry point. -/
def AppModel.update (m : AppModel) : Msg → AppModel × List Cmd
  | .windowSize w h => ({ m with width := w, height := h }, [])
  | .pipelinesLoaded ps e =>
    let m := { m with loading := false }
    match e with
    | some err =>
      match err.asAuthExpired with
      | some p =>
        if m.hasOnRequestCode then
          ({ m with reAuthProvider := p, view := .reAuth, err := none },
           [.requestDeviceCode])
        else ({ m with err := some err }, [])
      | none => ({ m with err := some err }, [])
    | none =>
      if m.list.pipelines.isEmpty then
        let m := { m with list := NewPipelineListModel ps }
        (if ps.isEmpty then m else { m with selectedPipeline := ps.headD {} }, [])
      else
        let m := { m with list := m.list.UpdatePipelines ps }
        (match ps.find? (fun p => p.id == m.selectedPipeline.id) with
         | some p => { m with selectedPipeline := p }
         | none => m, [])
  | .pipelineDetail pl e =>
    match e with
    | some err =>
      match err.asAuthExpired with
      | some p =>
        if m.hasOnRequestCode then
          ({ m with reAuthProvider := p, view := .reAuth, err := none },
           [.requestDeviceCode])
        else ({ m with err := some err }, [])
      | none => ({ m with err := some err }, [])
    | none => ({ m with detail := NewJobDetailModel pl.jobs }, [])
  | .tick =>
    let interval : Int := if anyRunning m.list.pipelines then 5 else 30
    let cmds := [Cmd.loadPipelines, Cmd.tickEvery interval]
    if m.selectedPipeline.status == StatusRunning ∧ m.selectedPipeline.id ≠ "" then
      (m, cmds ++ [.loadPipelineDetail m.selectedPipeline.id])
    else (m, cmds)
  | .actionResult _ e =>
    match e with
    | some err =>
      match err.asAuthExpired with
      | some p =>
        if m.hasOnRequestCode then
          ({ m with reAuthProvider := p, view := .reAuth, err := none },
           [.requestDeviceCode])
        else ({ m with err := some err }, [])
      | none => ({ m with err := some err }, [])
    | none => ({ m with loading := true }, [.loadPipelines])
  | .logsLoaded content jobName e =>
    let m := { m with logLoading := false }
    match e with
    | some _ => (m, [])   -- log errors are non-fatal: stay in the current view
    | none =>
      ({ m with logReturnView := m.view, view := .logs, logMode := true,
                logContent := content, logJobName := jobName, logOffset := 0 }, [])
  | .deviceCode code e =>
    match e with
    | some err =>
      ({ m with err := some (.wrap "re-authentication failed" err),
                view := .pipelines }, [])
    | none => ({ m with reAuthCode := code }, [.pollReAuthToken])
  | .reAuthComplete token e =>
    match e with
    | some err =>
      ({ m with err := some (.wrap "re-authentication failed" err),
                view := .pipelines }, [])
    | none =>
      let callback :=
        if m.hasOnTokenRefreshed then [Cmd.onTokenRefreshed m.reAuthProvider token]
        else []
      ({ m with reAuthProvider := "", reAuthCode := {}, view := .pipelines,
                loading := true, err := none }, callback ++ [.loadPipelines])
  | .key k =>
    if m.confirmAction ≠ "" then
      if k = "y" then
        if m.selectedPipeline.id = "" then ({ m with confirmAction := "" }, [])
        else
          let action := m.confirmAction
          let m := { m with confirmAction := "" }
          if action = "rerun" then (m, [.rerunPipeline m.selectedPipeline.id])
          else (m, [.cancelPipeline m.selectedPipeline.id])
      else if k = "q" ∨ k = "ctrl+c" then (m, [.quit])
      else ({ m with confirmAction := "" }, [])
    else if k = "q" ∨ k = "ctrl+c" then (m, [.quit])
    else if k = "ctrl+r" then ({ m with loading := true }, [.loadPipelines])
    else
      match m.view with
      | .pipelines => m.updatePipelinesKey k
      | .jobs => m.updateJobsKey k
      | .steps => m.updateStepsKey k
      | .logs => m.updateLogsKey k
      | .reAuth =>
        if k = "esc" ∨ k = "q" ∨ k = "ctrl+c" then
          if k = "q" ∨ k = "ctrl+c" then (m, [.quit])
          else
            ({ m with view := .pipelines,
                      err := some (.errorf (m.reAuthProvider ++
                        " session expired: press ctrl+r to retry")),
                      reAuthProvider := "", reAuthCode := {} }, [])
        else (m, [])

/-! ## Concrete fixtures and claim-support definitions -/

/-- An inner provider that answers every invocation with the raw
`ErrUnauthorized` sentinel while `refreshFn` keeps succeeding (a revoked
credential that the OAuth endpoint nevertheless refreshes). -/
def rawUnauthorizedOracle : ProviderOracle Unit :=
  ⟨fun _ => .error .unauthorized, fun _ => .ok "new-token"⟩

/-- An inner provider failing with a plain network error. -/
def networkTimeoutOracle : ProviderOracle Unit :=
  ⟨fun _ => .error (.errorf "network timeout"), fun _ => .ok "t"⟩

/-- An inner provider failing with a wrapped Unauthorized while the refresh
token is revoked. -/
def revokedRefreshOracle : ProviderOracle Unit :=
  ⟨fun _ => .error (.wrap "gitlab API error" .unauthorized),
   fun _ => .error (.errorf "refresh token revoked")⟩

/-- The wired GitLab oracle for the witness: the inner adapter answers 401 and
the refresh function is the save-failing `RefreshGitLab` wiring. -/
def saveFailOracle : ProviderOracle (List Pipeline) :=
  ⟨fun _ => .error .unauthorized,
   fun _ => refreshGitLabAsRefreshFn { refreshToken := "rt0" } "/home/u/.config/gitdeck/config.toml"
     (.ok { accessToken := "tok1", refreshToken := "rt1" }) (.error "disk full")⟩

/-- A single cursor movement (one up/down input). -/
inductive MoveOp where
  | down | up
deriving Repr, DecidableEq

/-- Run a sequence of up/down inputs against a pipeline list model. -/
def PipelineListModel.runMoves (m : PipelineListModel) (ops : List MoveOp) :
    PipelineListModel :=
  ops.foldl (fun acc op => match op with
    | .down => acc.MoveDown
    | .up => acc.MoveUp) m

/-- Run a sequence of up/down inputs against a job detail model. -/
def JobDetailModel.runMoves (m : JobDetailModel) (ops : List MoveOp) :
    JobDetailModel :=
  ops.foldl (fun acc op => match op with
    | .down => acc.MoveDown
    | .up => acc.MoveUp) m

/-- Run a sequence of up/down inputs against a step list model. -/
def StepListModel.runMoves (m : StepListModel) (ops : List MoveOp) :
    StepListModel :=
  ops.foldl (fun acc op => match op with
    | .down => acc.MoveDown
    | .up => acc.MoveUp) m

/-- The cursor invariant: pinned to 0 on an empty list, else within
`[0, len-1]`. -/
def cursorInBounds (len : Nat) (c : Int) : Prop :=
  0 ≤ c ∧ (len = 0 → c = 0) ∧ (len ≠ 0 → c ≤ (len : Int) - 1)

/-- A reachable state: the Jobs view with the re-auth callback wired. -/
def jobsViewModel : AppModel :=
  { NewAppModel {} with view := .jobs, hasOnRequestCode := true }

/-- A reachable state: the Steps view with the re-auth callback wired. -/
def stepsViewModel : AppModel :=
  { NewAppModel {} with view := .steps, hasOnRequestCode := true }

/-- Pipeline #42, present in the first list snapshot. -/
def p42 : Pipeline := { id := "42", branch := "main" }

/-- Pipeline #7, the only entry of a later refresh. -/
def p7 : Pipeline := { id := "7", branch := "dev" }

/-- Reachable trace: load `[p42]`, then a refresh empties the list (the
selected-pipeline snapshot keeps id "42"), then `r` opens the rerun prompt. -/
def confirmTrace3 : AppModel :=
  ((((NewAppModel {}).update (.pipelinesLoaded [p42] none)).1.update
      (.pipelinesLoaded [] none)).1.update (.key "r")).1

/-- The same trace after one more background refresh delivering `[p7]`. -/
def confirmTrace4 : AppModel :=
  (confirmTrace3.update (.pipelinesLoaded [p7] none)).1

/-- The spec's example state: a rerun prompt captured for pipeline "1042". -/
def prompt1042 : AppModel :=
  { NewAppModel {} with
      confirmAction := "rerun",
      selectedPipeline := { id := "1042" },
      list := NewPipelineListModel [{ id := "1042" }] }

/-! # Theorems -/

/-! ## Claim C1: refresh decorator retry discipline -/

/-- C1 (counterexample): with the inner operation failing Unauthorized both
before and after a successful refresh, `RerunPipeline` returns the raw
`ErrUnauthorized` of the retried call — not an `AuthExpiredError` — so the
claim "two consecutive Unauthorized results yield exactly one
AuthExpiredError" is false on this input.  (It still does not loop:
exactly two inner calls and one refresh are made.) -/
theorem rerunPipeline_double_unauthorized_returns_raw :
    (RefreshingProvider.RerunPipeline "gitlab" rawUnauthorizedOracle).1 =
      .error .unauthorized ∧
    (RefreshingProvider.RerunPipeline "gitlab" rawUnauthorizedOracle).1 ≠
      .error (.authExpired "gitlab") ∧
    (RefreshingProvider.RerunPipeline "gitlab" rawUnauthorizedOracle).2 =
      ⟨2, 1, 1, some "new-token"⟩ := by
  refine ⟨rfl, ?_, rfl⟩
  intro h
  simp [RefreshingProvider.RerunPipeline, refreshingCall, rawUnauthorizedOracle,
    GoError.isUnauthorized] at h

/-- C1 (amended): for every provider operation wrapped by
`RefreshingProvider`, `refreshFn` is called at most once and the inner
operation is invoked at most twice (one retry); and when the inner call fails
Unauthorized and the refresh succeeds, the decorator returns exactly the
retried call's result unchanged — in particular a second Unauthorized is
returned as the raw sentinel (no loop, no `AuthExpiredError`; the
`AuthExpiredError` arises only from a failed refresh). -/
theorem refreshingCall_retries_at_most_once {α : Type} (name : String)
    (oracle : ProviderOracle α) :
    ((refreshingCall name oracle).2.refreshCalls ≤ 1 ∧
     (refreshingCall name oracle).2.innerCalls ≤ 2) ∧
    (∀ (e : GoError) (tok : String),
      oracle.call 0 = .error e → e.isUnauthorized = true →
      oracle.refresh 0 = .ok tok →
      refreshingCall name oracle = (oracle.call 1, ⟨2, 1, 1, some tok⟩)) := by
  constructor
  · unfold refreshingCall
    rcases h0 : oracle.call 0 with e | v
    · by_cases hu : e.isUnauthorized
      · rcases h1 : oracle.refresh 0 with re | tok
        · simp [h0, hu, h1]
        · simp [h0, hu, h1]
      · simp [h0, hu]
    · simp [h0]
  · intro e tok h0 hu h1
    simp [refreshingCall, h0, hu, h1]

/-- C1 (witness): the amended theorem applied to the concrete
always-unauthorized oracle. -/
theorem refreshingCall_retries_at_most_once_witness :
    refreshingCall "gitlab" rawUnauthorizedOracle =
      (.error .unauthorized, ⟨2, 1, 1, some "new-token"⟩) :=
  (refreshingCall_retries_at_most_once "gitlab" rawUnauthorizedOracle).2
    .unauthorized "new-token" rfl rfl rfl

/-! ## Claim C9: pass-through of other errors; escalation on failed refresh -/

/-- C9: a non-Unauthorized inner error passes through unchanged with
`refreshFn` never called; an Unauthorized inner error whose refresh fails
yields `AuthExpiredError` carrying the provider name, with `updateToken`
never called. -/
theorem refreshingCall_passthrough_and_escalation {α : Type} (name : String)
    (oracle : ProviderOracle α) :
    (∀ e : GoError, oracle.call 0 = .error e → e.isUnauthorized = false →
        refreshingCall name oracle = (.error e, ⟨1, 0, 0, none⟩)) ∧
    (∀ (e re : GoError), oracle.call 0 = .error e → e.isUnauthorized = true →
        oracle.refresh 0 = .error re →
        refreshingCall name oracle = (.error (.authExpired name), ⟨1, 1, 0, none⟩)) := by
  constructor
  · intro e h0 hu
    simp [refreshingCall, h0, hu]
  · intro e re h0 hu h1
    simp [refreshingCall, h0, hu, h1]

/-- C9 (witness): both conjuncts applied to concrete oracles. -/
theorem refreshingCall_passthrough_and_escalation_witness :
    refreshingCall "gitlab" networkTimeoutOracle =
      (.error (.errorf "network timeout"), ⟨1, 0, 0, none⟩) ∧
    refreshingCall "gitlab" revokedRefreshOracle =
      (.error (.authExpired "gitlab"), ⟨1, 1, 0, none⟩) :=
  ⟨(refreshingCall_passthrough_and_escalation "gitlab" networkTimeoutOracle).1
      _ rfl rfl,
   (refreshingCall_passthrough_and_escalation "gitlab" revokedRefreshOracle).2
      _ _ rfl rfl rfl⟩

/-! ## Claim C10: refresh-then-save-failure escalates to AuthExpiredError -/

/-- C10: when the OAuth exchange succeeds but persisting the config fails,
`RefreshGitLab` returns the new access token together with a non-nil error and
installs the token in the in-memory config; and because the decorator treats
any non-nil `refreshFn` error as refresh failure, the wired decorator call
escalates to `AuthExpiredError` for "gitlab". -/
theorem refreshGitLab_save_failure_escalates
    (cfg : GitLabConfig) (path : String) (resp : TokenResponse) (saveErr : String)
    (oracle : ProviderOracle (List Pipeline))
    (hrt : cfg.refreshToken ≠ "") (hp : path ≠ "")
    (hcall : oracle.call 0 = .error .unauthorized)
    (href : oracle.refresh 0 =
      refreshGitLabAsRefreshFn cfg path (.ok resp) (.error saveErr)) :
    (TokenManager.RefreshGitLab cfg path (.ok resp) (.error saveErr)).2.1 =
      resp.accessToken ∧
    ((TokenManager.RefreshGitLab cfg path (.ok resp) (.error saveErr)).2.2).isSome =
      true ∧
    (TokenManager.RefreshGitLab cfg path (.ok resp) (.error saveErr)).1.token =
      resp.accessToken ∧
    (RefreshingProvider.ListPipelines "gitlab" oracle).1 =
      .error (.authExpired "gitlab") := by
  have hres : TokenManager.RefreshGitLab cfg path (.ok resp) (.error saveErr) =
      ({ cfg with token := resp.accessToken, refreshToken := resp.refreshToken },
       resp.accessToken,
       some ("token refreshed but failed to save config: " ++ saveErr)) := by
    simp [TokenManager.RefreshGitLab, hrt, hp]
  have hfn : refreshGitLabAsRefreshFn cfg path (.ok resp) (.error saveErr) =
      .error (.errorf ("token refreshed but failed to save config: " ++ saveErr)) := by
    simp [refreshGitLabAsRefreshFn, hres]
  refine ⟨by simp [hres], by simp [hres], by simp [hres], ?_⟩
  rw [hfn] at href
  simp [RefreshingProvider.ListPipelines, refreshingCall, hcall, href,
    GoError.isUnauthorized]

/-! ## Claim C7: tick cadence and selected-pipeline detail refresh -/

/-- C7: every tick emits a list-pipelines command and re-arms the timer with
5 seconds when some pipeline in the current list is Running, else 30 seconds,
and additionally emits a get-pipeline-detail command for the selected pipeline
exactly when it is Running with a non-empty identifier; the model itself is
unchanged. -/
theorem tick_schedules_refresh (m : AppModel) :
    m.update .tick =
      (m,
       [Cmd.loadPipelines,
        Cmd.tickEvery
          (if m.list.pipelines.any (fun p => p.status == StatusRunning) then 5
           else 30)] ++
       (if m.selectedPipeline.status == StatusRunning ∧ m.selectedPipeline.id ≠ ""
        then [Cmd.loadPipelineDetail m.selectedPipeline.id] else [])) := by
  simp only [AppModel.update, anyRunning]
  split <;> simp

/-! ## Claim C8: cursor bounds for all three list models -/

theorem cursorInBounds_zero (len : Nat) : cursorInBounds len 0 := by
  unfold cursorInBounds; omega

theorem pl_runMoves_inv (ops : List MoveOp) (m : PipelineListModel)
    (h : cursorInBounds m.pipelines.length m.cursor) :
    (m.runMoves ops).pipelines = m.pipelines ∧
    cursorInBounds m.pipelines.length (m.runMoves ops).cursor := by
  induction ops generalizing m with
  | nil => exact ⟨rfl, h⟩
  | cons op rest ih =>
    cases op with
    | down =>
      have hp : m.MoveDown.pipelines = m.pipelines := by
        unfold PipelineListModel.MoveDown; split <;> rfl
      have hc : m.MoveDown.cursor =
          (if m.cursor < (m.pipelines.length : Int) - 1 then m.cursor + 1
           else m.cursor) := by
        unfold PipelineListModel.MoveDown; split <;> rfl
      have hinv2 : cursorInBounds m.MoveDown.pipelines.length m.MoveDown.cursor := by
        rw [hp, hc]; unfold cursorInBounds at *; split <;> omega
      have tail := ih m.MoveDown hinv2
      have t2 := tail.2
      rw [hp] at t2
      exact ⟨tail.1.trans hp, t2⟩
    | up =>
      have hp : m.MoveUp.pipelines = m.pipelines := by
        unfold PipelineListModel.MoveUp; split <;> rfl
      have hc : m.MoveUp.cursor =
          (if m.cursor > 0 then m.cursor - 1 else m.cursor) := by
        unfold PipelineListModel.MoveUp; split <;> rfl
      have hinv2 : cursorInBounds m.MoveUp.pipelines.length m.MoveUp.cursor := by
        rw [hp, hc]; unfold cursorInBounds at *; split <;> omega
      have tail := ih m.MoveUp hinv2
      have t2 := tail.2
      rw [hp] at t2
      exact ⟨tail.1.trans hp, t2⟩

theorem jd_runMoves_inv (ops : List MoveOp) (m : JobDetailModel)
    (h : cursorInBounds m.jobs.length m.cursor) :
    (m.runMoves ops).jobs = m.jobs ∧
    cursorInBounds m.jobs.length (m.runMoves ops).cursor := by
  induction ops generalizing m with
  | nil => exact ⟨rfl, h⟩
  | cons op rest ih =>
    cases op with
    | down =>
      have hp : m.MoveDown.jobs = m.jobs := by
        unfold JobDetailModel.MoveDown; split <;> rfl
      have hc : m.MoveDown.cursor =
          (if m.cursor < (m.jobs.length : Int) - 1 then m.cursor + 1
           else m.cursor) := by
        unfold JobDetailModel.MoveDown; split <;> rfl
      have hinv2 : cursorInBounds m.MoveDown.jobs.length m.MoveDown.cursor := by
        rw [hp, hc]; unfold cursorInBounds at *; split <;> omega
      have tail := ih m.MoveDown hinv2
      have t2 := tail.2
      rw [hp] at t2
      exact ⟨tail.1.trans hp, t2⟩
    | up =>
      have hp : m.MoveUp.jobs = m.jobs := by
        unfold JobDetailModel.MoveUp; split <;> rfl
      have hc : m.MoveUp.cursor =
          (if m.cursor > 0 then m.cursor - 1 else m.cursor) := by
        unfold JobDetailModel.MoveUp; split <;> rfl
      have hinv2 : cursorInBounds m.MoveUp.jobs.length m.MoveUp.cursor := by
        rw [hp, hc]; unfold cursorInBounds at *; split <;> omega
      have tail := ih m.MoveUp hinv2
      have t2 := tail.2
      rw [hp] at t2
      exact ⟨tail.1.trans hp, t2⟩

theorem sl_runMoves_inv (ops : List MoveOp) (m : StepListModel)
    (h : cursorInBounds m.steps.length m.cursor) :
    (m.runMoves ops).steps = m.steps ∧
    cursorInBounds m.steps.length (m.runMoves ops).cursor := by
  induction ops generalizing m with
  | nil => exact ⟨rfl, h⟩
  | cons op rest ih =>
    cases op with
    | down =>
      have hp : m.MoveDown.steps = m.steps := by
        unfold StepListModel.MoveDown; split <;> rfl
      have hc : m.MoveDown.cursor =
          (if m.cursor < (m.steps.length : Int) - 1 then m.cursor + 1
           else m.cursor) := by
        unfold StepListModel.MoveDown; split <;> rfl
      have hinv2 : cursorInBounds m.MoveDown.steps.length m.MoveDown.cursor := by
        rw [hp, hc]; unfold cursorInBounds at *; split <;> omega
      have tail := ih m.MoveDown hinv2
      have t2 := tail.2
      rw [hp] at t2
      exact ⟨tail.1.trans hp, t2⟩
    | up =>
      have hp : m.MoveUp.steps = m.steps := by
        unfold StepListModel.MoveUp; split <;> rfl
      have hc : m.MoveUp.cursor =
          (if m.cursor > 0 then m.cursor - 1 else m.cursor) := by
        unfold StepListModel.MoveUp; split <;> rfl
      have hinv2 : cursorInBounds m.MoveUp.steps.length m.MoveUp.cursor := by
        rw [hp, hc]; unfold cursorInBounds at *; split <;> omega
      have tail := ih m.MoveUp hinv2
      have t2 := tail.2
      rw [hp] at t2
      exact ⟨tail.1.trans hp, t2⟩

/-- C8: for each of the three list models and any sequence of up/down inputs
starting from a freshly-constructed model, the cursor stays 0 on an empty list
and stays within `[0, len-1]` on a non-empty list. -/
theorem moveCursor_stays_in_bounds :
    (∀ (ps : List Pipeline) (ops : List MoveOp),
      (ps = [] → ((NewPipelineListModel ps).runMoves ops).cursor = 0) ∧
      (ps ≠ [] → 0 ≤ ((NewPipelineListModel ps).runMoves ops).cursor ∧
        ((NewPipelineListModel ps).runMoves ops).cursor ≤ (ps.length : Int) - 1)) ∧
    (∀ (js : List Job) (ops : List MoveOp),
      (js = [] → ((NewJobDetailModel js).runMoves ops).cursor = 0) ∧
      (js ≠ [] → 0 ≤ ((NewJobDetailModel js).runMoves ops).cursor ∧
        ((NewJobDetailModel js).runMoves ops).cursor ≤ (js.length : Int) - 1)) ∧
    (∀ (ss : List Step) (ops : List MoveOp),
      (ss = [] → ((NewStepListModel ss).runMoves ops).cursor = 0) ∧
      (ss ≠ [] → 0 ≤ ((NewStepListModel ss).runMoves ops).cursor ∧
        ((NewStepListModel ss).runMoves ops).cursor ≤ (ss.length : Int) - 1)) := by
  refine ⟨fun ps ops => ?_, fun js ops => ?_, fun ss ops => ?_⟩
  · have h := (pl_runMoves_inv ops (NewPipelineListModel ps)
      (cursorInBounds_zero _)).2
    have hps : (NewPipelineListModel ps).pipelines = ps := rfl
    rw [hps] at h
    unfold cursorInBounds at h
    constructor
    · intro he; exact h.2.1 (by simp [he])
    · intro hne
      have : ps.length ≠ 0 := by simpa using hne
      exact ⟨h.1, h.2.2 this⟩
  · have h := (jd_runMoves_inv ops (NewJobDetailModel js)
      (cursorInBounds_zero _)).2
    have hjs : (NewJobDetailModel js).jobs = js := rfl
    rw [hjs] at h
    unfold cursorInBounds at h
    constructor
    · intro he; exact h.2.1 (by simp [he])
    · intro hne
      have : js.length ≠ 0 := by simpa using hne
      exact ⟨h.1, h.2.2 this⟩
  · have h := (sl_runMoves_inv ops (NewStepListModel ss)
      (cursorInBounds_zero _)).2
    have hss : (NewStepListModel ss).steps = ss := rfl
    rw [hss] at h
    unfold cursorInBounds at h
    constructor
    · intro he; exact h.2.1 (by simp [he])
    · intro hne
      have : ss.length ≠ 0 := by simpa using hne
      exact ⟨h.1, h.2.2 this⟩

/-- C8 (witness): the bounds theorem applied to concrete lists and input
sequences. -/
theorem moveCursor_stays_in_bounds_witness :
    (0 ≤ ((NewPipelineListModel [{ id := "1" }, { id := "2" }]).runMoves
        [.down, .down, .up]).cursor ∧
      ((NewPipelineListModel [{ id := "1" }, { id := "2" }]).runMoves
        [.down, .down, .up]).cursor ≤
        (([{ id := "1" }, { id := "2" }] : List Pipeline).length : Int) - 1) ∧
    ((NewJobDetailModel []).runMoves [.up, .down, .down]).cursor = 0 ∧
    (0 ≤ ((NewStepListModel [{ name := "restore" }]).runMoves [.down, .up]).cursor ∧
      ((NewStepListModel [{ name := "restore" }]).runMoves [.down, .up]).cursor ≤
        (([{ name := "restore" }] : List Step).length : Int) - 1) :=
  ⟨(moveCursor_stays_in_bounds.1 [{ id := "1" }, { id := "2" }]
      [.down, .down, .up]).2 (by simp),
   (moveCursor_stays_in_bounds.2.1 [] [.up, .down, .down]).1 rfl,
   (moveCursor_stays_in_bounds.2.2 [{ name := "restore" }] [.down, .up]).2
      (by simp)⟩

/-- C10 (witness): the theorem at a concrete config, token response, save
failure and oracle. -/
theorem refreshGitLab_save_failure_escalates_witness :
    (TokenManager.RefreshGitLab { refreshToken := "rt0" }
        "/home/u/.config/gitdeck/config.toml"
        (.ok { accessToken := "tok1", refreshToken := "rt1" })
        (.error "disk full")).2.1 = "tok1" ∧
    ((TokenManager.RefreshGitLab { refreshToken := "rt0" }
        "/home/u/.config/gitdeck/config.toml"
        (.ok { accessToken := "tok1", refreshToken := "rt1" })
        (.error "disk full")).2.2).isSome = true ∧
    (TokenManager.RefreshGitLab { refreshToken := "rt0" }
        "/home/u/.config/gitdeck/config.toml"
        (.ok { accessToken := "tok1", refreshToken := "rt1" })
        (.error "disk full")).1.token = "tok1" ∧
    (RefreshingProvider.ListPipelines "gitlab" saveFailOracle).1 =
      .error (.authExpired "gitlab") :=
  refreshGitLab_save_failure_escalates { refreshToken := "rt0" }
    "/home/u/.config/gitdeck/config.toml"
    { accessToken := "tok1", refreshToken := "rt1" } "disk full"
    saveFailOracle (by decide) (by decide) rfl rfl

/-! ## Claim C4: device-flow polling protocol -/

theorem pollLoop_pending_step (label : String) (rest : List PollResp)
    (i e d : Int) (r : Nat) (h : ¬ d ≤ e + i) :
    pollLoop label (pendingResp :: rest) i e d r =
      pollLoop label rest i (e + i) d (r + 1) := by
  conv_lhs => rw [pollLoop]
  simp [pendingResp, h]

theorem pollLoop_slowDown_step (label : String) (rest : List PollResp)
    (i e d : Int) (r : Nat) (h : ¬ d ≤ e + i) :
    pollLoop label (slowDownResp :: rest) i e d r =
      pollLoop label rest (i + 5) (e + i) d (r + 1) := by
  conv_lhs => rw [pollLoop]
  simp [slowDownResp, h]

theorem pollLoop_token_step (label : String) (rest : List PollResp)
    (i e d : Int) (r : Nat) (t : String) (h : ¬ d ≤ e + i) (ht : t ≠ "") :
    pollLoop label ({ accessToken := t } :: rest) i e d r =
      ⟨.token t, r + 1, i⟩ := by
  conv_lhs => rw [pollLoop]
  simp [h, ht]

theorem pollLoop_expired_step (label : String) (rest : List PollResp)
    (i e d : Int) (r : Nat) (h : ¬ d ≤ e + i) :
    pollLoop label (expiredResp :: rest) i e d r =
      ⟨.err "device code expired — run gitdeck again to restart authentication",
       r + 1, i⟩ := by
  conv_lhs => rw [pollLoop]
  simp [expiredResp, h]

theorem pollLoop_denied_step (label : String) (rest : List PollResp)
    (i e d : Int) (r : Nat) (h : ¬ d ≤ e + i) :
    pollLoop label (deniedResp :: rest) i e d r =
      ⟨.err "access denied by user", r + 1, i⟩ := by
  conv_lhs => rw [pollLoop]
  simp [deniedResp, h]

theorem pollLoop_unexpected_step (label c : String) (rest : List PollResp)
    (i e d : Int) (r : Nat) (h : ¬ d ≤ e + i) (h0 : c ≠ "")
    (h1 : c ≠ "authorization_pending") (h2 : c ≠ "slow_down")
    (h3 : c ≠ "expired_token") (h4 : c ≠ "access_denied") :
    pollLoop label ({ error := c } :: rest) i e d r =
      ⟨.err ("unexpected error from " ++ label ++ ": " ++ truncate100 c),
       r + 1, i⟩ := by
  conv_lhs => rw [pollLoop]
  simp [h, h0, h1, h2, h3, h4]

theorem truncate100_bounded (c : String) : (truncate100 c).length ≤ 100 := by
  unfold truncate100
  split
  · rw [String.length_mk, List.length_take]
    omega
  · simp only [String.length] at *
    omega

/-- C4: the polling protocol of `PollToken` (identical in the GitLab and GitHub
device flows).  (1) For the response sequence pending, pending, token `t`, the
call returns `t` after exactly 3 requests with the interval unchanged;
(2) `authorization_pending` keeps polling at the same interval;
(3) `slow_down` increases the interval used for all subsequent sleeps by 5
seconds; (4)/(5) `expired_token` and `access_denied` return terminal errors
with no further request regardless of later responses; (6) any other error
code returns the "unexpected error" message carrying the raw code truncated to
at most 100 characters. -/
theorem pollToken_protocol :
    (∀ (label t : String) (i d : Int), 0 ≤ i → 3 * i < d → t ≠ "" →
      PollToken label [pendingResp, pendingResp, { accessToken := t }] i d =
        ⟨.token t, 3, i⟩) ∧
    (∀ (label : String) (rest : List PollResp) (i e d : Int) (r : Nat),
      ¬ d ≤ e + i →
      pollLoop label (pendingResp :: rest) i e d r =
        pollLoop label rest i (e + i) d (r + 1)) ∧
    (∀ (label : String) (rest : List PollResp) (i e d : Int) (r : Nat),
      ¬ d ≤ e + i →
      pollLoop label (slowDownResp :: rest) i e d r =
        pollLoop label rest (i + 5) (e + i) d (r + 1)) ∧
    (∀ (label : String) (rest : List PollResp) (i e d : Int) (r : Nat),
      ¬ d ≤ e + i →
      pollLoop label (expiredResp :: rest) i e d r =
        ⟨.err "device code expired — run gitdeck again to restart authentication",
         r + 1, i⟩) ∧
    (∀ (label : String) (rest : List PollResp) (i e d : Int) (r : Nat),
      ¬ d ≤ e + i →
      pollLoop label (deniedResp :: rest) i e d r =
        ⟨.err "access denied by user", r + 1, i⟩) ∧
    (∀ (label c : String) (rest : List PollResp) (i e d : Int) (r : Nat),
      ¬ d ≤ e + i → c ≠ "" → c ≠ "authorization_pending" → c ≠ "slow_down" →
      c ≠ "expired_token" → c ≠ "access_denied" →
      pollLoop label ({ error := c } :: rest) i e d r =
        ⟨.err ("unexpected error from " ++ label ++ ": " ++ truncate100 c),
         r + 1, i⟩ ∧
      (truncate100 c).length ≤ 100) := by
  refine ⟨?_, pollLoop_pending_step, pollLoop_slowDown_step,
    pollLoop_expired_step, pollLoop_denied_step,
    fun label c rest i e d r h h0 h1 h2 h3 h4 =>
      ⟨pollLoop_unexpected_step label c rest i e d r h h0 h1 h2 h3 h4,
       truncate100_bounded c⟩⟩
  intro label t i d hi hd ht
  unfold PollToken
  have hnorm : (if i ≤ 0 then 0 else i) = i := by split <;> omega
  rw [hnorm]
  rw [pollLoop_pending_step label _ i 0 d 0 (by omega)]
  rw [pollLoop_pending_step label _ i (0 + i) d 1 (by omega)]
  rw [pollLoop_token_step label _ i (0 + i + i) d 2 t (by omega) ht]

/-- C4 (witness): each conjunct of the protocol theorem at concrete inputs. -/
theorem pollToken_protocol_witness :
    PollToken "GitLab" [pendingResp, pendingResp, { accessToken := "T" }] 5 1000 =
      ⟨.token "T", 3, 5⟩ ∧
    pollLoop "GitLab" [pendingResp] 5 0 1000 0 = pollLoop "GitLab" [] 5 5 1000 1 ∧
    pollLoop "GitHub" [slowDownResp] 5 0 1000 0 = pollLoop "GitHub" [] 10 5 1000 1 ∧
    pollLoop "GitLab" [expiredResp, pendingResp] 5 0 1000 0 =
      ⟨.err "device code expired — run gitdeck again to restart authentication",
       1, 5⟩ ∧
    pollLoop "GitLab" [deniedResp, pendingResp] 5 0 1000 0 =
      ⟨.err "access denied by user", 1, 5⟩ ∧
    pollLoop "GitLab" [{ error := "server_on_fire" }] 5 0 1000 0 =
      ⟨.err ("unexpected error from GitLab: " ++ truncate100 "server_on_fire"),
       1, 5⟩ ∧
    (truncate100 "server_on_fire").length ≤ 100 := by
  have h := pollToken_protocol
  refine ⟨?_, ?_, ?_, ?_, ?_, ?_, ?_⟩
  · have := h.1 "GitLab" "T" 5 1000 (by norm_num) (by norm_num) (by decide)
    simpa using this
  · have := h.2.1 "GitLab" [] 5 0 1000 0 (by norm_num)
    simpa using this
  · have := h.2.2.1 "GitHub" [] 5 0 1000 0 (by norm_num)
    simpa using this
  · have := h.2.2.2.1 "GitLab" [pendingResp] 5 0 1000 0 (by norm_num)
    simpa using this
  · have := h.2.2.2.2.1 "GitLab" [pendingResp] 5 0 1000 0 (by norm_num)
    simpa using this
  · exact (h.2.2.2.2.2 "GitLab" "server_on_fire" [] 5 0 1000 0 (by norm_num)
      (by decide) (by decide) (by decide) (by decide) (by decide)).1
  · exact (h.2.2.2.2.2 "GitLab" "server_on_fire" [] 5 0 1000 0 (by norm_num)
      (by decide) (by decide) (by decide) (by decide) (by decide)).2

/-! ## Claim C5: polling is abandoned at the expires_in deadline -/

theorem pollLoop_pending_forever (label : String) (i : Int) (hi : 1 ≤ i) :
    ∀ (n : Nat) (e : Int) (r : Nat) (d : Int), (d - e).toNat ≤ n →
    (pollLoop label (List.replicate n pendingResp) i e d r).outcome = .ctxDone ∧
    (pollLoop label (List.replicate n pendingResp) i e d r).requests ≤
      r + (d - e).toNat := by
  intro n
  induction n with
  | zero =>
    intro e r d hn
    have hd : d ≤ e + i := by omega
    rw [List.replicate_zero, pollLoop]
    simp [hd]
  | succ n ih =>
    intro e r d hn
    by_cases hd : d ≤ e + i
    · rw [pollLoop]
      simp [hd]
    · rw [List.replicate_succ,
        pollLoop_pending_step label _ i e d r hd]
      have step := ih (e + i) (r + 1) d (by omega)
      exact ⟨step.1, by omega⟩

/-- C5: with the TUI wiring of `pollReAuthToken` (context deadline =
`ExpiresIn` seconds, poll cadence = the device-code interval), a server that
answers `authorization_pending` on every request leads the loop to return the
context error once the deadline falls inside a sleep — within `expires_in`
seconds of the poll start and after at most `expires_in` requests — rather
than polling forever. -/
theorem reAuth_poll_abandoned_at_deadline (label : String)
    (code : DeviceCodeResponse) (n : Nat) (hi : 1 ≤ code.interval)
    (hn : code.expiresIn.toNat ≤ n) :
    (reAuthPollResult label code (List.replicate n pendingResp)).outcome =
      .ctxDone ∧
    (reAuthPollResult label code (List.replicate n pendingResp)).requests ≤
      code.expiresIn.toNat := by
  unfold reAuthPollResult PollToken
  have hnorm : (if code.interval ≤ 0 then 0 else code.interval) = code.interval := by
    split <;> omega
  rw [hnorm]
  have h := pollLoop_pending_forever label code.interval hi n 0 0
    code.expiresIn (by omega)
  exact ⟨h.1, by omega⟩

/-- C5 (witness): a device code expiring after 5 seconds with a 1-second
interval and a server that stays pending for 10 responses. -/
theorem reAuth_poll_abandoned_at_deadline_witness :
    (reAuthPollResult "GitLab" { expiresIn := 5, interval := 1 }
      (List.replicate 10 pendingResp)).outcome = .ctxDone ∧
    (reAuthPollResult "GitLab" { expiresIn := 5, interval := 1 }
      (List.replicate 10 pendingResp)).requests ≤
      (5 : Int).toNat :=
  reAuth_poll_abandoned_at_deadline "GitLab"
    { expiresIn := 5, interval := 1 } 10 (by norm_num) (by norm_num)

/-! ## Claim C3: list refresh relocates the selection by identity -/

/-- C3: a successful pipeline-list refresh arriving over a non-empty current
list routes through `UpdatePipelines`, which re-points the cursor at the first
entry of the new list whose identifier equals the previously selected
pipeline's identifier (so the selected identity is preserved), and resets the
cursor to 0 when no entry of the new list has that identifier.
(`UpdatePipelines` is modelled from the spec: its body is absent from the
source tree; see its definition.) -/
theorem refresh_relocates_selection_by_identity (m : AppModel)
    (ps : List Pipeline) (hne : m.list.pipelines ≠ []) :
    (m.update (.pipelinesLoaded ps none)).1.list = m.list.UpdatePipelines ps ∧
    (∀ i, ps.findIdx? (fun p => p.id == m.list.SelectedPipeline.id) = some i →
      (m.list.UpdatePipelines ps).cursor = (i : Int) ∧
      (m.list.UpdatePipelines ps).SelectedPipeline.id =
        m.list.SelectedPipeline.id) ∧
    (ps.findIdx? (fun p => p.id == m.list.SelectedPipeline.id) = none →
      (m.list.UpdatePipelines ps).cursor = 0) := by
  have hemp : m.list.pipelines.isEmpty = false := by
    simpa [List.isEmpty_iff] using hne
  refine ⟨?_, ?_, ?_⟩
  · simp only [AppModel.update, hemp]
    cases hf : ps.find? (fun p => p.id == m.selectedPipeline.id) <;> simp [hf]
  · intro i hi
    obtain ⟨hlt, hp, _⟩ := List.findIdx?_eq_some_iff_getElem.mp hi
    have hcur : m.list.UpdatePipelines ps = ⟨ps, (i : Int)⟩ := by
      unfold PipelineListModel.UpdatePipelines
      rw [hi]
    refine ⟨by rw [hcur], ?_⟩
    have hne2 : ps.isEmpty = false := by
      cases ps
      · simp at hlt
      · rfl
    have hsel : (⟨ps, (i : Int)⟩ : PipelineListModel).SelectedPipeline = ps[i] := by
      unfold PipelineListModel.SelectedPipeline
      simp only [hne2, Bool.false_eq_true, if_false]
      have htn : ((i : Int)).toNat = i := rfl
      rw [htn, List.get?_eq_getElem?, List.getElem?_eq_getElem hlt]
      rfl
    rw [hcur, hsel]
    simpa using hp
  · intro hnone
    unfold PipelineListModel.UpdatePipelines
    rw [hnone]

/-- C3 (witness): the selected pipeline "2" (index 1 of a 3-element list) is
relocated to index 0 of the refreshed list where it now comes first; and a
refresh that drops it resets the cursor to 0. -/
theorem refresh_relocates_selection_by_identity_witness :
    ((({ NewAppModel {} with
          list := ⟨[{ id := "1" }, { id := "2" }], 1⟩ } : AppModel).update
        (.pipelinesLoaded [{ id := "2" }, { id := "3" }] none)).1.list =
      (⟨[{ id := "1" }, { id := "2" }], 1⟩ : PipelineListModel).UpdatePipelines
        [{ id := "2" }, { id := "3" }]) ∧
    ((⟨[{ id := "1" }, { id := "2" }], 1⟩ : PipelineListModel).UpdatePipelines
        [{ id := "2" }, { id := "3" }]).cursor = ((0 : Nat) : Int) ∧
    ((⟨[{ id := "1" }, { id := "2" }], 1⟩ : PipelineListModel).UpdatePipelines
        [{ id := "2" }, { id := "3" }]).SelectedPipeline.id =
      (⟨[{ id := "1" }, { id := "2" }], 1⟩ : PipelineListModel).SelectedPipeline.id ∧
    ((⟨[{ id := "1" }, { id := "2" }], 1⟩ : PipelineListModel).UpdatePipelines
        [{ id := "3" }, { id := "4" }]).cursor = 0 := by
  have h1 := refresh_relocates_selection_by_identity
    ({ NewAppModel {} with list := ⟨[{ id := "1" }, { id := "2" }], 1⟩ })
    [{ id := "2" }, { id := "3" }] (by simp)
  have h2 := refresh_relocates_selection_by_identity
    ({ NewAppModel {} with list := ⟨[{ id := "1" }, { id := "2" }], 1⟩ })
    [{ id := "3" }, { id := "4" }] (by simp)
  have hsome := h1.2.1 0 (by decide)
  exact ⟨h1.1, hsome.1, hsome.2, h2.2.2 (by decide)⟩

/-! ## Claim C2: AuthExpiredError routing to the ReAuth view -/

/-- C2 (counterexample): a job-log fetch result carrying `AuthExpiredError`
does NOT transition to the ReAuth view and issues no command — `Update`
discards every `LogsLoadedMsg` error (app.go:492-497), so the claim is false
for the log-fetch message. -/
theorem logsLoaded_authExpired_is_swallowed :
    (jobsViewModel.update
      (.logsLoaded "" "build" (some (.authExpired "gitlab")))).1.view =
      .jobs ∧
    (jobsViewModel.update
      (.logsLoaded "" "build" (some (.authExpired "gitlab")))).1.view ≠
      .reAuth ∧
    (jobsViewModel.update
      (.logsLoaded "" "build" (some (.authExpired "gitlab")))).2 = [] := by
  refine ⟨rfl, ?_, rfl⟩
  intro h
  rw [show (jobsViewModel.update
      (.logsLoaded "" "build" (some (.authExpired "gitlab")))).1.view =
      ViewState.jobs from rfl] at h
  exact ViewState.noConfusion h

/-- C2 (amended): a pipeline-list, pipeline-detail or rerun/cancel action
result whose error `errors.As`-matches `AuthExpiredError` transitions to the
ReAuth view, records the provider and issues exactly a RequestCode command,
from whatever view was active (given the `OnRequestCode` callback is wired,
as `main.go` always does); a job-log fetch error — `AuthExpiredError`
included — is discarded: the view is unchanged and no command is issued. -/
theorem authExpired_routes_to_reAuth :
    (∀ (m : AppModel) (ps : List Pipeline) (e : GoError) (p : String),
      e.asAuthExpired = some p → m.hasOnRequestCode = true →
      (m.update (.pipelinesLoaded ps (some e))).1.view = .reAuth ∧
      (m.update (.pipelinesLoaded ps (some e))).1.reAuthProvider = p ∧
      (m.update (.pipelinesLoaded ps (some e))).2 = [.requestDeviceCode]) ∧
    (∀ (m : AppModel) (pl : Pipeline) (e : GoError) (p : String),
      e.asAuthExpired = some p → m.hasOnRequestCode = true →
      (m.update (.pipelineDetail pl (some e))).1.view = .reAuth ∧
      (m.update (.pipelineDetail pl (some e))).1.reAuthProvider = p ∧
      (m.update (.pipelineDetail pl (some e))).2 = [.requestDeviceCode]) ∧
    (∀ (m : AppModel) (a : String) (e : GoError) (p : String),
      e.asAuthExpired = some p → m.hasOnRequestCode = true →
      (m.update (.actionResult a (some e))).1.view = .reAuth ∧
      (m.update (.actionResult a (some e))).1.reAuthProvider = p ∧
      (m.update (.actionResult a (some e))).2 = [.requestDeviceCode]) ∧
    (∀ (m : AppModel) (content jobName : String) (e : GoError),
      (m.update (.logsLoaded content jobName (some e))).1.view = m.view ∧
      (m.update (.logsLoaded content jobName (some e))).2 = []) := by
  refine ⟨?_, ?_, ?_, ?_⟩
  · intro m ps e p has hcb
    simp [AppModel.update, has, hcb]
  · intro m pl e p has hcb
    simp [AppModel.update, has, hcb]
  · intro m a e p has hcb
    simp [AppModel.update, has, hcb]
  · intro m content jobName e
    simp [AppModel.update]

/-- C2 (witness): the amended theorem applied to concrete states in the Jobs
and Steps views with a wrapped `AuthExpiredError`. -/
theorem authExpired_routes_to_reAuth_witness :
    ((jobsViewModel.update (.pipelinesLoaded []
        (some (.wrap "fetching" (.authExpired "github"))))).1.view = .reAuth ∧
      (jobsViewModel.update (.pipelinesLoaded []
        (some (.wrap "fetching" (.authExpired "github"))))).1.reAuthProvider =
        "github" ∧
      (jobsViewModel.update (.pipelinesLoaded []
        (some (.wrap "fetching" (.authExpired "github"))))).2 =
        [.requestDeviceCode]) ∧
    ((stepsViewModel.update (.pipelineDetail {}
        (some (.authExpired "gitlab")))).1.view = .reAuth ∧
      (stepsViewModel.update (.pipelineDetail {}
        (some (.authExpired "gitlab")))).1.reAuthProvider = "gitlab" ∧
      (stepsViewModel.update (.pipelineDetail {}
        (some (.authExpired "gitlab")))).2 = [.requestDeviceCode]) ∧
    ((jobsViewModel.update (.actionResult "rerun"
        (some (.authExpired "gitlab")))).1.view = .reAuth ∧
      (jobsViewModel.update (.actionResult "rerun"
        (some (.authExpired "gitlab")))).1.reAuthProvider = "gitlab" ∧
      (jobsViewModel.update (.actionResult "rerun"
        (some (.authExpired "gitlab")))).2 = [.requestDeviceCode]) ∧
    ((stepsViewModel.update (.logsLoaded "log text" "build"
        (some (.errorf "boom")))).1.view = stepsViewModel.view ∧
      (stepsViewModel.update (.logsLoaded "log text" "build"
        (some (.errorf "boom")))).2 = []) :=
  ⟨authExpired_routes_to_reAuth.1 jobsViewModel []
      (.wrap "fetching" (.authExpired "github")) "github" rfl rfl,
   authExpired_routes_to_reAuth.2.1 stepsViewModel {}
      (.authExpired "gitlab") "gitlab" rfl rfl,
   authExpired_routes_to_reAuth.2.2.1 jobsViewModel "rerun"
      (.authExpired "gitlab") "gitlab" rfl rfl,
   authExpired_routes_to_reAuth.2.2.2 stepsViewModel "log text" "build"
      (.errorf "boom")⟩

/-! ## Claim C6: confirmation overlay outcomes -/

/-- C6 (counterexample): the rerun prompt was captured while pipeline "42" was
the selected snapshot (the prompt text renders "#42"), yet after a background
refresh that arrives over an empty current list, pressing the confirm key
dispatches rerun against "7" — not the identity captured when the prompt was
shown.  The claim's "even if a background refresh changed the list in
between" is therefore false in this reachable corner. -/
theorem confirm_dispatches_refreshed_identity :
    confirmTrace3.confirmAction = "rerun" ∧
    confirmTrace3.selectedPipeline.id = "42" ∧
    (confirmTrace4.update (.key "y")).2 = [.rerunPipeline "7"] ∧
    (confirmTrace4.update (.key "y")).2 ≠ [.rerunPipeline "42"] := by
  have h3 : (confirmTrace4.update (.key "y")).2 = [.rerunPipeline "7"] := rfl
  refine ⟨rfl, rfl, h3, ?_⟩
  rw [h3]
  decide

/-- C6 (amended): while `ConfirmAction` is non-empty, exactly three outcomes
are possible on the next keystroke — a quit key quits; the confirm key with a
non-empty selected-pipeline snapshot dispatches the stored rerun or cancel
command exactly once against that snapshot's identity and clears the overlay
(with an empty snapshot it just clears); any other key clears the overlay with
no command.  A background refresh arriving over a NON-empty current list
preserves the captured identity and the pending overlay (the identity can only
change when the current list was empty, as the counterexample shows). -/
theorem confirm_overlay_outcomes :
    (∀ (m : AppModel) (k : String), m.confirmAction ≠ "" →
      ((k = "q" ∨ k = "ctrl+c") → m.update (.key k) = (m, [.quit])) ∧
      (k = "y" → m.selectedPipeline.id ≠ "" →
        m.update (.key k) =
          ({ m with confirmAction := "" },
           [if m.confirmAction = "rerun" then
              .rerunPipeline m.selectedPipeline.id
            else .cancelPipeline m.selectedPipeline.id])) ∧
      (k = "y" → m.selectedPipeline.id = "" →
        m.update (.key k) = ({ m with confirmAction := "" }, [])) ∧
      (k ≠ "y" → k ≠ "q" → k ≠ "ctrl+c" →
        m.update (.key k) = ({ m with confirmAction := "" }, []))) ∧
    (∀ (m : AppModel) (ps : List Pipeline), m.list.pipelines ≠ [] →
      (m.update (.pipelinesLoaded ps none)).1.selectedPipeline.id =
        m.selectedPipeline.id ∧
      (m.update (.pipelinesLoaded ps none)).1.confirmAction =
        m.confirmAction) := by
  constructor
  · intro m k hca
    refine ⟨?_, ?_, ?_, ?_⟩
    · rintro (rfl | rfl) <;> simp [AppModel.update, hca]
    · rintro rfl hid
      simp only [AppModel.update, if_pos hca, if_true]
      rw [if_neg hid]
      split <;> simp_all
    · rintro rfl hid
      simp only [AppModel.update, if_pos hca, if_true]
      rw [if_pos hid]
    · intro hy hq hcc
      simp only [AppModel.update, if_pos hca]
      rw [if_neg hy, if_neg (by simp [hq, hcc])]
  · intro m ps hne
    have hemp : m.list.pipelines.isEmpty = false := by
      simpa [List.isEmpty_iff] using hne
    cases hf : ps.find? (fun p => p.id == m.selectedPipeline.id) with
    | none => constructor <;> simp [AppModel.update, hemp, hf]
    | some p =>
      have hid : p.id = m.selectedPipeline.id := by
        simpa using List.find?_some hf
      constructor <;> simp [AppModel.update, hemp, hf, hid]

/-- C6 (witness): the overlay theorem at the spec's "1042" example — confirm
dispatches rerun "1042" and clears; a stray key clears with no command; a quit
key quits; and a background refresh over the non-empty list keeps identity
"1042" and the pending prompt. -/
theorem confirm_overlay_outcomes_witness :
    prompt1042.update (.key "y") =
      ({ prompt1042 with confirmAction := "" }, [.rerunPipeline "1042"]) ∧
    prompt1042.update (.key "esc") =
      ({ prompt1042 with confirmAction := "" }, []) ∧
    prompt1042.update (.key "q") = (prompt1042, [.quit]) ∧
    (prompt1042.update
        (.pipelinesLoaded [{ id := "9" }, { id := "1042" }] none)).1.selectedPipeline.id =
      "1042" ∧
    (prompt1042.update
        (.pipelinesLoaded [{ id := "9" }, { id := "1042" }] none)).1.confirmAction =
      "rerun" := by
  have h := confirm_overlay_outcomes
  have hy := (h.1 prompt1042 "y" (by decide)).2.1 rfl (by decide)
  have hesc := (h.1 prompt1042 "esc" (by decide)).2.2.2 (by decide) (by decide)
    (by decide)
  have hq := (h.1 prompt1042 "q" (by decide)).1 (Or.inl rfl)
  have hr := h.2 prompt1042 [{ id := "9" }, { id := "1042" }] (by decide)
  refine ⟨?_, hesc, hq, ?_, ?_⟩
  · simpa using hy
  · rw [hr.1]; rfl
  · rw [hr.2]; rfl

end Gitdeck
